import Mathlib

/-!
Shallow embedding of the degree-of-freedom composition core of the
FiniteElement class (deal.II, include/fe/fe.h), together with proofs of
the specified properties of its index-lookup queries, transfer-matrix
accessors and interface-constraint sizing.

Machine integers (unsigned int) are modelled as Nat; the queries' Assert
guards are modelled by Option-valued functions (none = the assertion
fires and no value is returned).  Matrix entries (double) are modelled
as rationals, which is faithful for every property proved here: only
storage, sizing and equality of entries are ever used, never rounding.
-/

namespace DealII

/-- Dense matrix with explicit row/column counts and rational entries,
standing in for FullMatrix of double.  Only its size and the stored
entries matter to the properties in this file. -/
structure FullMatrix where
  rows : Nat
  cols : Nat
  entries : List (List Rat)
deriving DecidableEq, Repr

/-- Modelled from the spec: the per-dimension combinatorial constant
GeometryInfo.vertices_per_cell of the geometry collaborator
(base/geometry_info.h, not under src/): hypercube cells have 2^dim
vertices (2 in 1-D, 4 in 2-D, 8 in 3-D). -/
def vertices_per_cell : Nat → Nat
  | 1 => 2
  | 2 => 4
  | 3 => 8
  | _ => 0

/-- Modelled from the spec: GeometryInfo.vertices_per_face (geometry
collaborator, not under src/): a face of a 1-D cell is a single vertex,
a 2-D face (edge) has 2 vertices, a 3-D face (quadrilateral) has 4. -/
def vertices_per_face : Nat → Nat
  | 1 => 1
  | 2 => 2
  | 3 => 4
  | _ => 0

/-- Modelled from the spec: GeometryInfo.lines_per_cell (geometry
collaborator, not under src/): 1 in 1-D (the cell itself), 4 in 2-D,
12 in 3-D. -/
def lines_per_cell : Nat → Nat
  | 1 => 1
  | 2 => 4
  | 3 => 12
  | _ => 0

/-- Modelled from the spec: GeometryInfo.lines_per_face (geometry
collaborator, not under src/): a 2-D face is itself a line, a 3-D face
is bounded by 4 lines. -/
def lines_per_face : Nat → Nat
  | 1 => 0
  | 2 => 1
  | 3 => 4
  | _ => 0

/-- Modelled from the spec: GeometryInfo.quads_per_cell (geometry
collaborator, not under src/): 1 in 2-D (the cell itself), 6 in 3-D. -/
def quads_per_cell : Nat → Nat
  | 1 => 0
  | 2 => 1
  | 3 => 6
  | _ => 0

/-- Modelled from the spec: GeometryInfo.hexes_per_cell (geometry
collaborator, not under src/): 1 in 3-D (the cell itself). -/
def hexes_per_cell : Nat → Nat
  | 1 => 0
  | 2 => 0
  | 3 => 1
  | _ => 0

/-- Modelled from the spec: GeometryInfo.children_per_cell (geometry
collaborator, not under src/): isotropic refinement produces 2^dim
children (2 in 1-D, 4 in 2-D, 8 in 3-D). -/
def children_per_cell (dim : Nat) : Nat := 2 ^ dim

/-- The FiniteElement object after construction: the element descriptor
counts of FiniteElementData together with the index composition tables,
the non-primitivity data, the transfer matrices and the interface
constraint matrix, exactly the protected fields of fe.h. -/
structure FiniteElement where
  dim : Nat
  dofs_per_vertex : Nat
  dofs_per_line : Nat
  dofs_per_quad : Nat
  dofs_per_hex : Nat
  dofs_per_cell : Nat
  dofs_per_face : Nat
  n_components : Nat
  system_to_component_table : List (Nat × Nat)
  face_system_to_component_table : List (Nat × Nat)
  system_to_base_table : List ((Nat × Nat) × Nat)
  face_system_to_base_table : List ((Nat × Nat) × Nat)
  component_to_base_table : List (Nat × Nat)
  restriction_is_additive_flags : List Bool
  nonzero_components : List (List Bool)
  n_nonzero_components_table : List Nat
  cached_primitivity : Bool
  restriction : List FullMatrix
  prolongation : List FullMatrix
  interface_constraints : FullMatrix
deriving DecidableEq, Repr

/-- FiniteElement.n_nonzero_components (fe.h:2282-2289): asserts the
index is below dofs_per_cell, then reads n_nonzero_components_table. -/
def FiniteElement.n_nonzero_components (fe : FiniteElement) (i : Nat) : Option Nat :=
  if i < fe.dofs_per_cell then fe.n_nonzero_components_table[i]? else none

/-- FiniteElement.get_nonzero_components (fe.h:2271-2278): asserts the
index is below dofs_per_cell, then reads the nonzero_components row. -/
def FiniteElement.get_nonzero_components (fe : FiniteElement) (i : Nat) :
    Option (List Bool) :=
  if i < fe.dofs_per_cell then fe.nonzero_components[i]? else none

/-- FiniteElement.is_primitive(i) (fe.h:2293-2310): asserts the index is
below dofs_per_cell, then compares the cached nonzero-component count
against 1. -/
def FiniteElement.is_primitive (fe : FiniteElement) (i : Nat) : Option Bool :=
  if i < fe.dofs_per_cell then
    (fe.n_nonzero_components_table[i]?).map (fun n => n == 1)
  else none

/-- FiniteElement.is_primitive() (fe.h:2313-2319), the zero-argument
overload for the whole element: returns the cached flag. -/
def FiniteElement.is_primitive_element (fe : FiniteElement) : Bool :=
  fe.cached_primitivity

/-- FiniteElement.system_to_component_index (fe.h:2121-2131): asserts
the index is within the table, asserts primitivity of the shape
function (is_primitive itself asserts the index is below
dofs_per_cell), then returns the table entry. -/
def FiniteElement.system_to_component_index (fe : FiniteElement) (index : Nat) :
    Option (Nat × Nat) :=
  if index < fe.system_to_component_table.length then
    if index < fe.dofs_per_cell ∧ fe.n_nonzero_components_table[index]? = some 1 then
      fe.system_to_component_table[index]?
    else none
  else none

/-- FiniteElement.component_to_system_index (fe.h:2133-2145): a linear
search (std::find) over system_to_component_table for the given pair;
asserts the pair was found and returns its position. -/
def FiniteElement.component_to_system_index (fe : FiniteElement)
    (component index : Nat) : Option Nat :=
  fe.system_to_component_table.findIdx? (fun p => p == (component, index))

/-- The dimension-dependent remapping from a face-local shape-function
index to the corresponding cell-local index, exactly as written inline
in the primitivity assertion of face_system_to_component_index
(fe.h:2170-2215): identity in 1-D; in 2-D and 3-D nested conditionals
on the face-vertex / face-line / face-interior index ranges. -/
def faceToCellIndex (dim dpv dpl index : Nat) : Nat :=
  match dim with
  | 1 => index
  | 2 =>
      if index < vertices_per_face 2 * dpv then
        index
      else
        vertices_per_cell 2 * dpv + (index - vertices_per_face 2 * dpv)
  | 3 =>
      if index < vertices_per_face 3 * dpv then
        index
      else
        if index < vertices_per_face 3 * dpv + lines_per_face 3 * dpl then
          vertices_per_cell 3 * dpv + (index - vertices_per_face 3 * dpv)
        else
          vertices_per_cell 3 * dpv + lines_per_cell 3 * dpl +
            (index - vertices_per_face 3 * dpv - lines_per_face 3 * dpl)
  | _ => index

/-- The same remapping written as the specification describes it: 1-D
face index equals cell index; 2-D an index below
vertices_per_face * dofs_per_vertex maps directly and any other index
maps into the cell line-DOF block offset past all
vertices_per_cell * dofs_per_vertex cell vertex DOFs; 3-D the
face-vertex, face-line and face-interior ranges are offset into the
cell vertex block, the cell line block, and past both of those. -/
def faceToCellIndexSpec (dim dpv dpl index : Nat) : Nat :=
  if dim = 1 then
    index
  else if dim = 2 then
    if index < vertices_per_face 2 * dpv then
      index
    else
      vertices_per_cell 2 * dpv + (index - vertices_per_face 2 * dpv)
  else
    if index < vertices_per_face 3 * dpv then
      index
    else if index < vertices_per_face 3 * dpv + lines_per_face 3 * dpl then
      vertices_per_cell 3 * dpv + (index - vertices_per_face 3 * dpv)
    else
      vertices_per_cell 3 * dpv + lines_per_cell 3 * dpl +
        ((index - vertices_per_face 3 * dpv) - lines_per_face 3 * dpl)

/-- FiniteElement.face_system_to_component_index (fe.h:2149-2219):
asserts the face index is within the face table, asserts primitivity of
the shape function at the dimension-dependent remapped cell index (the
assertion is a disjunction over dim = 1, 2, 3), then returns the face
table entry. -/
def FiniteElement.face_system_to_component_index (fe : FiniteElement) (index : Nat) :
    Option (Nat × Nat) :=
  if index < fe.face_system_to_component_table.length then
    if (fe.dim = 1 ∨ fe.dim = 2 ∨ fe.dim = 3) ∧
        (faceToCellIndex fe.dim fe.dofs_per_vertex fe.dofs_per_line index
          < fe.dofs_per_cell) ∧
        fe.n_nonzero_components_table[faceToCellIndex fe.dim fe.dofs_per_vertex
          fe.dofs_per_line index]? = some 1 then
      fe.face_system_to_component_table[index]?
    else none
  else none

/-- FiniteElement.system_to_base_index (fe.h:2223-2231): asserts the
index is within the table, then returns the table entry; no primitivity
check. -/
def FiniteElement.system_to_base_index (fe : FiniteElement) (index : Nat) :
    Option ((Nat × Nat) × Nat) :=
  if index < fe.system_to_base_table.length then
    fe.system_to_base_table[index]?
  else none

/-- FiniteElement.face_system_to_base_index (fe.h:2236-2244): asserts
the face index is within the face table, then returns the table entry;
no primitivity check. -/
def FiniteElement.face_system_to_base_index (fe : FiniteElement) (index : Nat) :
    Option ((Nat × Nat) × Nat) :=
  if index < fe.face_system_to_base_table.length then
    fe.face_system_to_base_table[index]?
  else none

/-- FiniteElement.component_to_base (fe.h:2248-2257): asserts the
component is within the table, then returns the table entry. -/
def FiniteElement.component_to_base (fe : FiniteElement) (index : Nat) :
    Option (Nat × Nat) :=
  if index < fe.component_to_base_table.length then
    fe.component_to_base_table[index]?
  else none

/-- FiniteElement.restriction_is_additive (fe.h:2260-2268): asserts the
index is below dofs_per_cell, then reads the flag array. -/
def FiniteElement.restriction_is_additive (fe : FiniteElement) (index : Nat) :
    Option Bool :=
  if index < fe.dofs_per_cell then fe.restriction_is_additive_flags[index]? else none

/-- Modelled from the spec: FiniteElement.compute_n_nonzero_components,
declared at fe.h:1870-1872 but defined in fe.cc (not under src/): for
each shape function, the number of true entries of its
nonzero-components row. -/
def compute_n_nonzero_components (nzc : List (List Bool)) : List Nat :=
  nzc.map (fun row => row.count true)

/-- A matrix is zero-sized when it has no rows; this is how a concrete
element marks a matrix it does not implement (fe.h:1525-1531). -/
def FullMatrix.isEmpty (M : FullMatrix) : Bool := M.rows == 0

/-- Modelled from the spec: FiniteElement.get_restriction_matrix,
declared at fe.h:623-624 but defined in fe.cc (not under src/): asserts
the child index is below children_per_cell, aborts with the
not-implemented signal (ExcProjectionVoid) when the stored matrix is
zero-sized, and otherwise returns the stored matrix. -/
def FiniteElement.get_restriction_matrix (fe : FiniteElement) (child : Nat) :
    Option FullMatrix :=
  if child < children_per_cell fe.dim then
    match fe.restriction[child]? with
    | some M => if M.isEmpty then none else some M
    | none => none
  else none

/-- Modelled from the spec: FiniteElement.get_prolongation_matrix,
declared at fe.h:675-676 but defined in fe.cc (not under src/):
analogous to get_restriction_matrix, with ExcEmbeddingVoid as the
not-implemented signal. -/
def FiniteElement.get_prolongation_matrix (fe : FiniteElement) (child : Nat) :
    Option FullMatrix :=
  if child < children_per_cell fe.dim then
    match fe.prolongation[child]? with
    | some M => if M.isEmpty then none else some M
    | none => none
  else none

/-- Modelled from the spec: FiniteElement.restriction_is_implemented,
declared at fe.h:732 but defined in fe.cc (not under src/): true when
every child restriction matrix is populated (nonzero size). -/
def FiniteElement.restriction_is_implemented (fe : FiniteElement) : Bool :=
  fe.restriction.all (fun M => !M.isEmpty)

/-- Modelled from the spec: FiniteElement.prolongation_is_implemented,
declared at fe.h:704 but defined in fe.cc (not under src/): true when
every child prolongation matrix is populated (nonzero size). -/
def FiniteElement.prolongation_is_implemented (fe : FiniteElement) : Bool :=
  fe.prolongation.all (fun M => !M.isEmpty)

/-- Modelled from the spec: FiniteElement.constraints, declared at
fe.h:774 but defined in fe.cc (not under src/): aborts with the
not-implemented signal (ExcConstraintsVoid) when the interface
constraint matrix was left zero-sized, otherwise returns it. -/
def FiniteElement.constraints (fe : FiniteElement) : Option FullMatrix :=
  if fe.interface_constraints.isEmpty then none else some fe.interface_constraints

/-- Modelled from the spec: FiniteElement.constraints_are_implemented,
declared at fe.h:806 but defined in fe.cc (not under src/): the
existence probe for the interface constraint matrix. -/
def FiniteElement.constraints_are_implemented (fe : FiniteElement) : Bool :=
  !fe.interface_constraints.isEmpty

/-- Modelled from the spec: FiniteElement.interface_constraints_size,
declared at fe.h:1588-1589 but defined in fe.cc (not under src/); the
row/column layout follows the class documentation (fe.h:130-172): in
1-D 0 by 0; in 2-D rows for the middle vertex and the two child-line
interiors, columns for the two end vertices and the parent line; in
3-D rows for the center vertex, the 4 mid-edge vertices, the 12 lines
and the 4 child faces, columns for the 4 corner vertices, the 4
boundary lines and the parent face. -/
def FiniteElement.interface_constraints_size (fe : FiniteElement) : Nat × Nat :=
  match fe.dim with
  | 1 => (0, 0)
  | 2 => (fe.dofs_per_vertex + 2 * fe.dofs_per_line,
          2 * fe.dofs_per_vertex + fe.dofs_per_line)
  | 3 => (5 * fe.dofs_per_vertex + 12 * fe.dofs_per_line + 4 * fe.dofs_per_quad,
          4 * fe.dofs_per_vertex + 4 * fe.dofs_per_line + fe.dofs_per_quad)
  | _ => (0, 0)

/-- Modelled from the spec: FiniteElement.operator==, declared at
fe.h:833-850 but defined in fe.cc (not under src/); per its own
documentation it compares the FiniteElementData descriptor part and
the interface constraint matrix, and deliberately does not compare the
restriction and prolongation matrix arrays. -/
def feEq (a b : FiniteElement) : Bool :=
  (a.dim == b.dim) && (a.dofs_per_vertex == b.dofs_per_vertex) &&
  (a.dofs_per_line == b.dofs_per_line) && (a.dofs_per_quad == b.dofs_per_quad) &&
  (a.dofs_per_hex == b.dofs_per_hex) && (a.dofs_per_cell == b.dofs_per_cell) &&
  (a.dofs_per_face == b.dofs_per_face) && (a.n_components == b.n_components) &&
  (a.interface_constraints == b.interface_constraints)

/-- Modelled from the spec: the per-dimension formula for the number of
DOFs on one face, from the Element Descriptor (FiniteElementData,
fe_base.h, not under src/). -/
def dofs_per_face_formula (dim dpv dpl dpq : Nat) : Nat :=
  match dim with
  | 1 => dpv
  | 2 => 2 * dpv + dpl
  | 3 => 4 * dpv + 4 * dpl + dpq
  | _ => 0

/-- Modelled from the spec: the construction invariants that the
FiniteElement constructor (fe.cc, not under src/) establishes and that
nothing mutates afterwards: every table has its declared length, the
cached nonzero-component counts are computed from the
nonzero-components rows, the cached whole-element primitivity flag is
the conjunction over all shape functions, and the per-dimension count
formulas of the Element Descriptor hold. -/
structure WellConstructed (fe : FiniteElement) : Prop where
  dim_ok : fe.dim = 1 ∨ fe.dim = 2 ∨ fe.dim = 3
  dpc_eq : fe.dofs_per_cell =
    vertices_per_cell fe.dim * fe.dofs_per_vertex +
    lines_per_cell fe.dim * fe.dofs_per_line +
    quads_per_cell fe.dim * fe.dofs_per_quad +
    hexes_per_cell fe.dim * fe.dofs_per_hex
  dpf_eq : fe.dofs_per_face =
    dofs_per_face_formula fe.dim fe.dofs_per_vertex fe.dofs_per_line fe.dofs_per_quad
  stc_len : fe.system_to_component_table.length = fe.dofs_per_cell
  fstc_len : fe.face_system_to_component_table.length = fe.dofs_per_face
  stb_len : fe.system_to_base_table.length = fe.dofs_per_cell
  fstb_len : fe.face_system_to_base_table.length = fe.dofs_per_face
  ctb_len : fe.component_to_base_table.length = fe.n_components
  ria_len : fe.restriction_is_additive_flags.length = fe.dofs_per_cell
  nzc_len : fe.nonzero_components.length = fe.dofs_per_cell
  nnz_eq : fe.n_nonzero_components_table = compute_n_nonzero_components fe.nonzero_components
  cached_eq : fe.cached_primitivity = fe.n_nonzero_components_table.all (fun n => n == 1)
  restr_len : fe.restriction.length = children_per_cell fe.dim
  prol_len : fe.prolongation.length = children_per_cell fe.dim

/-- Modelled from the spec: a non-composite element, whose
system_to_base_table and face_system_to_base_table the constructor
(fe.cc, not under src/) fills with base id 0, instance 0 and the shape
function index itself (documented at fe.h:1616-1650). -/
def FiniteElement.NonComposite (fe : FiniteElement) : Prop :=
  fe.system_to_base_table =
    (List.range fe.dofs_per_cell).map (fun i => ((0, 0), i)) ∧
  fe.face_system_to_base_table =
    (List.range fe.dofs_per_face).map (fun i => ((0, 0), i))

/-- The rational one half, given in lowest terms so that kernel
evaluation of equality never has to normalize. -/
def half : Rat := ⟨1, 2, by decide, by decide⟩

/-- A populated 4 by 4 transfer matrix used by the concrete example
elements below. -/
def mat44 : FullMatrix :=
  ⟨4, 4, List.replicate 4 (List.replicate 4 half)⟩

/-- A concrete scalar 2-D element with one DOF per vertex (the Q1
element): 4 DOFs per cell, 2 per face, a single component, every shape
function primitive, all tables in their default non-composite state,
transfer matrices populated, interface constraints the midpoint
average. -/
def exampleFE : FiniteElement where
  dim := 2
  dofs_per_vertex := 1
  dofs_per_line := 0
  dofs_per_quad := 0
  dofs_per_hex := 0
  dofs_per_cell := 4
  dofs_per_face := 2
  n_components := 1
  system_to_component_table := [(0, 0), (0, 1), (0, 2), (0, 3)]
  face_system_to_component_table := [(0, 0), (0, 1)]
  system_to_base_table := [((0, 0), 0), ((0, 0), 1), ((0, 0), 2), ((0, 0), 3)]
  face_system_to_base_table := [((0, 0), 0), ((0, 0), 1)]
  component_to_base_table := [(0, 0)]
  restriction_is_additive_flags := [false, false, false, false]
  nonzero_components := [[true], [true], [true], [true]]
  n_nonzero_components_table := [1, 1, 1, 1]
  cached_primitivity := true
  restriction := List.replicate 4 mat44
  prolongation := List.replicate 4 mat44
  interface_constraints := ⟨1, 2, [[half, half]]⟩

/-- A concrete two-component 2-D element with one DOF per vertex whose
shape function 1 is non-primitive (nonzero in both components), with
restriction matrices and interface constraints left unpopulated
(zero-sized) but prolongation matrices populated. -/
def exampleFE2 : FiniteElement where
  dim := 2
  dofs_per_vertex := 1
  dofs_per_line := 0
  dofs_per_quad := 0
  dofs_per_hex := 0
  dofs_per_cell := 4
  dofs_per_face := 2
  n_components := 2
  system_to_component_table := [(0, 0), (0, 1), (1, 0), (0, 2)]
  face_system_to_component_table := [(0, 0), (0, 1)]
  system_to_base_table := [((0, 0), 0), ((0, 0), 1), ((0, 0), 2), ((0, 0), 3)]
  face_system_to_base_table := [((0, 0), 0), ((0, 0), 1)]
  component_to_base_table := [(0, 0), (0, 1)]
  restriction_is_additive_flags := [true, true, true, true]
  nonzero_components := [[true, false], [true, true], [false, true], [true, false]]
  n_nonzero_components_table := [1, 2, 1, 1]
  cached_primitivity := false
  restriction := List.replicate 4 ⟨0, 0, []⟩
  prolongation := List.replicate 4 mat44
  interface_constraints := ⟨0, 0, []⟩

/-- The same element as exampleFE except for its restriction matrices,
which are left unpopulated. -/
def exampleFEAltRestriction : FiniteElement :=
  { exampleFE with restriction := List.replicate 4 ⟨0, 0, []⟩ }

/-- The same element as exampleFE except for its interface constraint
matrix, whose weights differ. -/
def exampleFEAltConstraints : FiniteElement :=
  { exampleFE with interface_constraints := ⟨1, 2, [[(1 : Rat), 0]]⟩ }

/-- A concrete two-component 2-D element with two non-primitive shape
functions (indices 1 and 2), whose system_to_component_table rows at
those indices hold the same invalid marker pair, as the construction
leaves entries of non-primitive shape functions undefined; the entries
at the primitive indices 0 and 3 are valid and distinct from every
other row. -/
def exampleFE3 : FiniteElement where
  dim := 2
  dofs_per_vertex := 1
  dofs_per_line := 0
  dofs_per_quad := 0
  dofs_per_hex := 0
  dofs_per_cell := 4
  dofs_per_face := 2
  n_components := 2
  system_to_component_table := [(0, 0), (99, 99), (99, 99), (1, 0)]
  face_system_to_component_table := [(0, 0), (0, 1)]
  system_to_base_table := [((0, 0), 0), ((0, 0), 1), ((0, 0), 2), ((0, 0), 3)]
  face_system_to_base_table := [((0, 0), 0), ((0, 0), 1)]
  component_to_base_table := [(0, 0), (0, 1)]
  restriction_is_additive_flags := [true, true, true, true]
  nonzero_components := [[true, false], [true, true], [true, true], [false, true]]
  n_nonzero_components_table := [1, 2, 2, 1]
  cached_primitivity := false
  restriction := List.replicate 4 mat44
  prolongation := List.replicate 4 mat44
  interface_constraints := ⟨0, 0, []⟩

/-- The concrete scalar example element satisfies every construction
invariant. -/
theorem exampleFE_wc : WellConstructed exampleFE := by
  constructor <;> decide

/-- The concrete two-component example element satisfies every
construction invariant. -/
theorem exampleFE2_wc : WellConstructed exampleFE2 := by
  constructor <;> decide

/-- The concrete element with two duplicate non-primitive rows
satisfies every construction invariant. -/
theorem exampleFE3_wc : WellConstructed exampleFE3 := by
  constructor <;> decide

/-- When a value sits at position i of a list and at no earlier
position, the linear search for it stops exactly at position i.  The
later positions are unconstrained and may repeat. -/
theorem findIdx_getElem_first {α : Type} {p : α → Bool} {l : List α} {i : Nat}
    {a : α} (hp : ∀ x, p x = true ↔ x = a) (hg : l[i]? = some a)
    (hfirst : ∀ j, j < i → l[j]? ≠ some a) :
    l.findIdx? p = some i := by
  have hi : i < l.length := by
    by_contra hc
    rw [List.getElem?_eq_none (Nat.le_of_not_lt hc)] at hg
    exact Option.noConfusion hg
  have ha : l[i] = a := by
    rw [List.getElem?_eq_getElem hi] at hg
    exact Option.some.inj hg
  rw [List.findIdx?_eq_some_iff_getElem]
  refine ⟨hi, (hp _).mpr ha, fun j hji => ?_⟩
  have hj : j < l.length := Nat.lt_trans hji hi
  have hne : l[j] ≠ a := by
    intro he
    exact hfirst j hji (by rw [List.getElem?_eq_getElem hj, he])
  simp only [Bool.not_eq_true]
  rw [← Bool.not_eq_true]
  intro hc
  exact hne ((hp _).mp hc)

/-- Unpacking a successful is_primitive query: the index is in range
and the cached count table holds a value at it. -/
theorem is_primitive_extract (fe : FiniteElement) {i : Nat} {b : Bool}
    (hp : fe.is_primitive i = some b) :
    i < fe.dofs_per_cell ∧
      ∃ n, fe.n_nonzero_components_table[i]? = some n ∧ (n == 1) = b := by
  unfold FiniteElement.is_primitive at hp
  by_cases hi : i < fe.dofs_per_cell
  · rw [if_pos hi] at hp
    obtain ⟨n, hn, hnb⟩ := Option.map_eq_some'.mp hp
    exact ⟨hi, n, hn, hnb⟩
  · rw [if_neg hi] at hp
    exact Option.noConfusion hp

/-- Under the construction invariants the cached count table has one
entry per shape function. -/
theorem nnz_table_length (fe : FiniteElement) (h : WellConstructed fe) :
    fe.n_nonzero_components_table.length = fe.dofs_per_cell := by
  rw [h.nnz_eq]
  unfold compute_n_nonzero_components
  rw [List.length_map, h.nzc_len]

/-- Claim C1: for every primitive shape-function index i,
system_to_component_index succeeds and component_to_system_index
applied to the returned pair finds exactly the entry written for i and
returns i again (round-trip law).  The uniqueness hypothesis is the
construction invariant of the data model: the row written for a
primitive shape function is its (component, index-within-component)
pair and so differs from every other row, while rows of non-primitive
shape functions are undefined (they hold an invalid marker) and may
repeat among themselves. -/
theorem system_to_component_round_trip (fe : FiniteElement)
    (h : WellConstructed fe)
    (huniq : ∀ i, i < fe.system_to_component_table.length →
      ∀ j, j < fe.system_to_component_table.length →
        fe.n_nonzero_components_table[i]? = some 1 → i ≠ j →
          fe.system_to_component_table[i]? ≠ fe.system_to_component_table[j]?)
    (i : Nat) (hprim : fe.is_primitive i = some true) :
    ∃ p, fe.system_to_component_index i = some p ∧
      fe.component_to_system_index p.1 p.2 = some i := by
  obtain ⟨hi, n, hn, hn1⟩ := is_primitive_extract fe hprim
  have hne : fe.n_nonzero_components_table[i]? = some 1 := by
    rw [hn]
    have : n = 1 := by simpa using hn1
    rw [this]
  have hlen : i < fe.system_to_component_table.length := by
    rw [h.stc_len]; exact hi
  refine ⟨fe.system_to_component_table[i], ?_, ?_⟩
  · unfold FiniteElement.system_to_component_index
    rw [if_pos hlen, if_pos ⟨hi, hne⟩]
    exact List.getElem?_eq_getElem hlen
  · unfold FiniteElement.component_to_system_index
    refine findIdx_getElem_first (fun x => by simp)
      (List.getElem?_eq_getElem hlen) ?_
    intro j hji hgj
    have hjlen : j < fe.system_to_component_table.length := Nat.lt_trans hji hlen
    exact huniq i hlen j hjlen hne (by omega)
      (by rw [List.getElem?_eq_getElem hlen, hgj])

/-- Witness for C1: the round trip at the primitive index 3 of the
concrete element whose two non-primitive shape functions 1 and 2 share
a duplicate invalid table row. -/
theorem system_to_component_round_trip_witness :
    ∃ p, exampleFE3.system_to_component_index 3 = some p ∧
      exampleFE3.component_to_system_index p.1 p.2 = some 3 :=
  system_to_component_round_trip exampleFE3 exampleFE3_wc
    (by
      intro i hi j hj
      have h4 : exampleFE3.system_to_component_table.length = 4 := rfl
      rw [h4] at hi hj
      interval_cases i <;> interval_cases j <;> decide)
    3 (by decide)

/-- Claim C2: for every in-range shape-function index, the nonzero
component set exists, n_nonzero_components returns its cardinality, and
is_primitive holds exactly when that cardinality is 1; the cached
whole-element flag agrees with the quantified statement. -/
theorem primitivity_iff_one_nonzero_component (fe : FiniteElement)
    (h : WellConstructed fe) :
    (∀ i, i < fe.dofs_per_cell →
      ∃ s, fe.get_nonzero_components i = some s ∧
        fe.n_nonzero_components i = some (s.count true) ∧
        (fe.is_primitive i = some true ↔ fe.n_nonzero_components i = some 1)) ∧
    (fe.is_primitive_element = true ↔
      ∀ i, i < fe.dofs_per_cell → fe.is_primitive i = some true) := by
  have hlen := nnz_table_length fe h
  constructor
  · intro i hi
    have hz : i < fe.nonzero_components.length := by rw [h.nzc_len]; exact hi
    have hmap : fe.n_nonzero_components_table[i]? =
        some ((fe.nonzero_components[i]).count true) := by
      rw [h.nnz_eq]
      unfold compute_n_nonzero_components
      rw [List.getElem?_map, List.getElem?_eq_getElem hz]
      rfl
    refine ⟨fe.nonzero_components[i], ?_, ?_, ?_⟩
    · unfold FiniteElement.get_nonzero_components
      rw [if_pos hi]
      exact List.getElem?_eq_getElem hz
    · unfold FiniteElement.n_nonzero_components
      rw [if_pos hi]
      exact hmap
    · unfold FiniteElement.is_primitive FiniteElement.n_nonzero_components
      rw [if_pos hi, if_pos hi, hmap]
      simp
  · unfold FiniteElement.is_primitive_element
    rw [h.cached_eq, List.all_eq_true]
    constructor
    · intro hall i hi
      have hlt : i < fe.n_nonzero_components_table.length := by rw [hlen]; exact hi
      have hmem := List.getElem?_mem (List.getElem?_eq_getElem hlt)
      have h1 := hall _ hmem
      unfold FiniteElement.is_primitive
      rw [if_pos hi, List.getElem?_eq_getElem hlt]
      simp only [Option.map_some']
      rw [h1]
    · intro hall n hmem
      obtain ⟨j, hj, rfl⟩ := List.mem_iff_getElem.mp hmem
      have hj' : j < fe.dofs_per_cell := by rw [← hlen]; exact hj
      have hone := hall j hj'
      unfold FiniteElement.is_primitive at hone
      rw [if_pos hj', List.getElem?_eq_getElem hj] at hone
      simpa using hone

/-- Witness for C2: the full statement for the concrete two-component
element, evaluated at its non-primitive index 1 and its primitive
index 0, together with the cached-flag direction. -/
theorem primitivity_iff_one_nonzero_component_witness :
    (∃ s, exampleFE2.get_nonzero_components 1 = some s ∧
      exampleFE2.n_nonzero_components 1 = some (s.count true) ∧
      (exampleFE2.is_primitive 1 = some true ↔
        exampleFE2.n_nonzero_components 1 = some 1)) ∧
    (exampleFE2.is_primitive_element = true ↔
      ∀ i, i < exampleFE2.dofs_per_cell → exampleFE2.is_primitive i = some true) :=
  ⟨(primitivity_iff_one_nonzero_component exampleFE2 exampleFE2_wc).1 1 (by decide),
   (primitivity_iff_one_nonzero_component exampleFE2 exampleFE2_wc).2⟩

/-- Claim C4: system_to_component_index on an in-range non-primitive
index signals the primitivity violation and returns no value, on an
in-range primitive index it returns the table entry; likewise
face_system_to_component_index, whose primitivity check consults the
cell-level index obtained through the dimension-dependent remapping. -/
theorem primitive_only_queries_signal (fe : FiniteElement)
    (h : WellConstructed fe) :
    (∀ i, i < fe.dofs_per_cell → fe.is_primitive i = some false →
        fe.system_to_component_index i = none) ∧
    (∀ i, i < fe.dofs_per_cell → fe.is_primitive i = some true →
        fe.system_to_component_index i = fe.system_to_component_table[i]? ∧
        (fe.system_to_component_index i).isSome = true) ∧
    (∀ i, i < fe.dofs_per_face →
        fe.is_primitive (faceToCellIndex fe.dim fe.dofs_per_vertex fe.dofs_per_line i)
          = some false →
        fe.face_system_to_component_index i = none) ∧
    (∀ i, i < fe.dofs_per_face →
        fe.is_primitive (faceToCellIndex fe.dim fe.dofs_per_vertex fe.dofs_per_line i)
          = some true →
        fe.face_system_to_component_index i = fe.face_system_to_component_table[i]? ∧
        (fe.face_system_to_component_index i).isSome = true) := by
  refine ⟨?_, ?_, ?_, ?_⟩
  · intro i hi hf
    obtain ⟨-, n, hn, hnb⟩ := is_primitive_extract fe hf
    unfold FiniteElement.system_to_component_index
    rw [if_pos (by rw [h.stc_len]; exact hi), if_neg ?_]
    rintro ⟨-, h1⟩
    rw [hn] at h1
    have : n = 1 := by injection h1
    subst this
    simp at hnb
  · intro i hi hf
    obtain ⟨-, n, hn, hnb⟩ := is_primitive_extract fe hf
    have hn1 : fe.n_nonzero_components_table[i]? = some 1 := by
      rw [hn]
      have : n = 1 := by simpa using hnb
      rw [this]
    have hlen : i < fe.system_to_component_table.length := by
      rw [h.stc_len]; exact hi
    unfold FiniteElement.system_to_component_index
    rw [if_pos hlen, if_pos ⟨hi, hn1⟩, List.getElem?_eq_getElem hlen]
    exact ⟨rfl, rfl⟩
  · intro i hi hf
    obtain ⟨hcell, n, hn, hnb⟩ := is_primitive_extract fe hf
    unfold FiniteElement.face_system_to_component_index
    rw [if_pos (by rw [h.fstc_len]; exact hi), if_neg ?_]
    rintro ⟨-, -, h1⟩
    rw [hn] at h1
    have : n = 1 := by injection h1
    subst this
    simp at hnb
  · intro i hi hf
    obtain ⟨hcell, n, hn, hnb⟩ := is_primitive_extract fe hf
    have hn1 : fe.n_nonzero_components_table[faceToCellIndex fe.dim fe.dofs_per_vertex
        fe.dofs_per_line i]? = some 1 := by
      rw [hn]
      have : n = 1 := by simpa using hnb
      rw [this]
    have hlen : i < fe.face_system_to_component_table.length := by
      rw [h.fstc_len]; exact hi
    unfold FiniteElement.face_system_to_component_index
    rw [if_pos hlen, if_pos ⟨h.dim_ok, hcell, hn1⟩, List.getElem?_eq_getElem hlen]
    exact ⟨rfl, rfl⟩

/-- Witness for C4: on the concrete two-component element, the cell
query and the face query signal at the non-primitive shape function 1
and return the table entries at the primitive shape function 0. -/
theorem primitive_only_queries_signal_witness :
    exampleFE2.system_to_component_index 1 = none ∧
    exampleFE2.system_to_component_index 0 = some (0, 0) ∧
    exampleFE2.face_system_to_component_index 1 = none ∧
    exampleFE2.face_system_to_component_index 0 = some (0, 0) := by
  have h := primitive_only_queries_signal exampleFE2 exampleFE2_wc
  exact ⟨h.1 1 (by decide) (by decide), by decide,
    h.2.2.1 1 (by decide) (by decide), by decide⟩

/-- Claim C5: the face-to-cell index remapping used inside
face_system_to_component_index coincides, in every dimension 1, 2, 3
and for all per-entity DOF counts, with the blockwise description of
the specification. -/
theorem face_to_cell_remap_formula (dim dpv dpl index : Nat)
    (h : dim = 1 ∨ dim = 2 ∨ dim = 3) :
    faceToCellIndex dim dpv dpl index = faceToCellIndexSpec dim dpv dpl index := by
  rcases h with h | h | h <;> subst h <;>
    simp [faceToCellIndex, faceToCellIndexSpec]

/-- Witness for C5: the remapping agreement evaluated in 3-D with two
DOFs per vertex, three per line, at face index 17. -/
theorem face_to_cell_remap_formula_witness :
    (3 = 1 ∨ (3 : Nat) = 2 ∨ (3 : Nat) = 3) ∧
    faceToCellIndex 3 2 3 17 = faceToCellIndexSpec 3 2 3 17 :=
  ⟨by decide, face_to_cell_remap_formula 3 2 3 17 (by decide)⟩

/-- Claim C6: the base-index queries are total over all in-range
indices, including non-primitive shape functions, and on a
non-composite element they return base id 0, instance 0 and the index
itself. -/
theorem base_index_queries_total (fe : FiniteElement)
    (h : WellConstructed fe) :
    (∀ i, i < fe.dofs_per_cell → (fe.system_to_base_index i).isSome = true) ∧
    (∀ i, i < fe.dofs_per_cell → fe.is_primitive i = some false →
        (fe.system_to_base_index i).isSome = true) ∧
    (∀ i, i < fe.dofs_per_face → (fe.face_system_to_base_index i).isSome = true) ∧
    (fe.NonComposite →
      (∀ i, i < fe.dofs_per_cell → fe.system_to_base_index i = some ((0, 0), i)) ∧
      (∀ i, i < fe.dofs_per_face → fe.face_system_to_base_index i = some ((0, 0), i))) := by
  have hcell : ∀ i, i < fe.dofs_per_cell → (fe.system_to_base_index i).isSome = true := by
    intro i hi
    have hl : i < fe.system_to_base_table.length := by rw [h.stb_len]; exact hi
    unfold FiniteElement.system_to_base_index
    rw [if_pos hl, List.getElem?_eq_getElem hl]
    rfl
  refine ⟨hcell, fun i hi _ => hcell i hi, ?_, ?_⟩
  · intro i hi
    have hl : i < fe.face_system_to_base_table.length := by rw [h.fstb_len]; exact hi
    unfold FiniteElement.face_system_to_base_index
    rw [if_pos hl, List.getElem?_eq_getElem hl]
    rfl
  · rintro ⟨h1, h2⟩
    constructor
    · intro i hi
      have hl : i < fe.system_to_base_table.length := by rw [h.stb_len]; exact hi
      unfold FiniteElement.system_to_base_index
      rw [if_pos hl, h1, List.getElem?_map, List.getElem?_range hi]
      rfl
    · intro i hi
      have hl : i < fe.face_system_to_base_table.length := by rw [h.fstb_len]; exact hi
      unfold FiniteElement.face_system_to_base_index
      rw [if_pos hl, h2, List.getElem?_map, List.getElem?_range hi]
      rfl

/-- Witness for C6: on the concrete two-component non-composite
element, the base-index query succeeds at the non-primitive index 1 and
returns base 0, instance 0, index 1, on the cell and on the face. -/
theorem base_index_queries_total_witness :
    exampleFE2.is_primitive 1 = some false ∧
    exampleFE2.system_to_base_index 1 = some ((0, 0), 1) ∧
    exampleFE2.face_system_to_base_index 1 = some ((0, 0), 1) := by
  have h := (base_index_queries_total exampleFE2 exampleFE2_wc).2.2.2
    ⟨by decide, by decide⟩
  exact ⟨by decide, h.1 1 (by decide), h.2 1 (by decide)⟩

/-- Claim C7: for every in-range child, the restriction and
prolongation accessors return the stored matrix and fail with the
not-implemented signal exactly when the concrete element left that
matrix zero-sized; the implementation probes return true exactly when
no in-range access fails; the same for the interface-constraints
accessor and probe. -/
theorem transfer_and_constraint_accessors (fe : FiniteElement)
    (h : WellConstructed fe) :
    (∀ c, c < children_per_cell fe.dim →
      ∃ M, fe.restriction[c]? = some M ∧
        (fe.get_restriction_matrix c = none ↔ M.isEmpty = true) ∧
        (M.isEmpty = false → fe.get_restriction_matrix c = some M)) ∧
    (fe.restriction_is_implemented = true ↔
      ∀ c, c < children_per_cell fe.dim →
        (fe.get_restriction_matrix c).isSome = true) ∧
    (∀ c, c < children_per_cell fe.dim →
      ∃ M, fe.prolongation[c]? = some M ∧
        (fe.get_prolongation_matrix c = none ↔ M.isEmpty = true) ∧
        (M.isEmpty = false → fe.get_prolongation_matrix c = some M)) ∧
    (fe.prolongation_is_implemented = true ↔
      ∀ c, c < children_per_cell fe.dim →
        (fe.get_prolongation_matrix c).isSome = true) ∧
    (fe.constraints = none ↔ fe.interface_constraints.isEmpty = true) ∧
    (fe.interface_constraints.isEmpty = false →
      fe.constraints = some fe.interface_constraints) ∧
    (fe.constraints_are_implemented = true ↔ (fe.constraints).isSome = true) := by
  have hres : ∀ c, c < children_per_cell fe.dim →
      ∃ M, fe.restriction[c]? = some M ∧
        (fe.get_restriction_matrix c = none ↔ M.isEmpty = true) ∧
        (M.isEmpty = false → fe.get_restriction_matrix c = some M) := by
    intro c hc
    have hl : c < fe.restriction.length := by rw [h.restr_len]; exact hc
    refine ⟨fe.restriction[c], List.getElem?_eq_getElem hl, ?_, ?_⟩
    · unfold FiniteElement.get_restriction_matrix
      rw [if_pos hc, List.getElem?_eq_getElem hl]
      cases hE : (fe.restriction[c]).isEmpty <;> simp [hE]
    · intro hE
      unfold FiniteElement.get_restriction_matrix
      rw [if_pos hc, List.getElem?_eq_getElem hl]
      simp [hE]
  have hpro : ∀ c, c < children_per_cell fe.dim →
      ∃ M, fe.prolongation[c]? = some M ∧
        (fe.get_prolongation_matrix c = none ↔ M.isEmpty = true) ∧
        (M.isEmpty = false → fe.get_prolongation_matrix c = some M) := by
    intro c hc
    have hl : c < fe.prolongation.length := by rw [h.prol_len]; exact hc
    refine ⟨fe.prolongation[c], List.getElem?_eq_getElem hl, ?_, ?_⟩
    · unfold FiniteElement.get_prolongation_matrix
      rw [if_pos hc, List.getElem?_eq_getElem hl]
      cases hE : (fe.prolongation[c]).isEmpty <;> simp [hE]
    · intro hE
      unfold FiniteElement.get_prolongation_matrix
      rw [if_pos hc, List.getElem?_eq_getElem hl]
      simp [hE]
  have hprobe : ∀ (ms : List FullMatrix),
      ∀ (acc : Nat → Option FullMatrix) (n : Nat), ms.length = n →
      (∀ c, c < n →
        ∃ M, ms[c]? = some M ∧ (acc c = none ↔ M.isEmpty = true) ∧
          (M.isEmpty = false → acc c = some M)) →
      (ms.all (fun M => !M.isEmpty) = true ↔
        ∀ c, c < n → (acc c).isSome = true) := by
    intro ms acc n hn hacc
    rw [List.all_eq_true]
    constructor
    · intro hall c hc
      obtain ⟨M, hM, hiff, hok⟩ := hacc c hc
      have hE : M.isEmpty = false := by
        have := hall _ (List.getElem?_mem hM)
        simpa using this
      rw [hok hE]
      rfl
    · intro hall M hmem
      obtain ⟨c, hcl, hMeq⟩ := List.mem_iff_getElem.mp hmem
      have hc : c < n := by rw [← hn]; exact hcl
      obtain ⟨M', hM', hiff, hok⟩ := hacc c hc
      have hMM : M' = M := by
        rw [List.getElem?_eq_getElem hcl, hMeq] at hM'
        exact (Option.some.inj hM').symm
      subst hMM
      have hsome := hall c hc
      cases hE : M'.isEmpty
      · simp [hE]
      · exfalso
        rw [hiff.mpr hE] at hsome
        simp at hsome
  refine ⟨hres, ?_, hpro, ?_, ?_, ?_, ?_⟩
  · exact hprobe fe.restriction fe.get_restriction_matrix
      (children_per_cell fe.dim) h.restr_len hres
  · exact hprobe fe.prolongation fe.get_prolongation_matrix
      (children_per_cell fe.dim) h.prol_len hpro
  · unfold FiniteElement.constraints
    cases hE : fe.interface_constraints.isEmpty <;> simp [hE]
  · intro hE
    unfold FiniteElement.constraints
    simp [hE]
  · unfold FiniteElement.constraints_are_implemented FiniteElement.constraints
    cases hE : fe.interface_constraints.isEmpty <;> simp [hE]

/-- Witness for C7: on the concrete two-component element, whose
restriction matrices and interface constraints were left zero-sized but
whose prolongation matrices are populated, the accessors fail exactly
where the probes say so. -/
theorem transfer_and_constraint_accessors_witness :
    (∃ M, exampleFE2.restriction[0]? = some M ∧
      (exampleFE2.get_restriction_matrix 0 = none ↔ M.isEmpty = true) ∧
      (M.isEmpty = false → exampleFE2.get_restriction_matrix 0 = some M)) ∧
    exampleFE2.get_restriction_matrix 0 = none ∧
    exampleFE2.restriction_is_implemented = false ∧
    (exampleFE2.get_prolongation_matrix 1).isSome = true ∧
    exampleFE2.prolongation_is_implemented = true ∧
    exampleFE2.constraints = none ∧
    exampleFE2.constraints_are_implemented = false := by
  have h := transfer_and_constraint_accessors exampleFE2 exampleFE2_wc
  exact ⟨h.1 0 (by decide), by decide, by decide, by decide, by decide,
    by decide, by decide⟩

/-- Claim C8: the size of the interface constraint matrix is a pure
function of dimension and per-entity DOF counts, unchanged by whatever
matrix is actually stored; it is 0 by 0 in 1-D, in 2-D it has
middle-vertex plus two child-line-interior rows and two-end-vertex plus
parent-line columns, and the scalar element with one DOF per vertex and
none per line gets a 1 by 2 matrix. -/
theorem interface_constraints_sizing (fe : FiniteElement) :
    (∀ M, ({fe with interface_constraints := M} : FiniteElement).interface_constraints_size
        = fe.interface_constraints_size) ∧
    (fe.dim = 1 → fe.interface_constraints_size = (0, 0)) ∧
    (fe.dim = 2 → fe.interface_constraints_size =
      (fe.dofs_per_vertex + 2 * fe.dofs_per_line,
       2 * fe.dofs_per_vertex + fe.dofs_per_line)) ∧
    (fe.dim = 2 → fe.dofs_per_vertex = 1 → fe.dofs_per_line = 0 →
      fe.interface_constraints_size = (1, 2)) := by
  refine ⟨fun M => rfl, ?_, ?_, ?_⟩
  · intro h1
    unfold FiniteElement.interface_constraints_size
    rw [h1]
  · intro h2
    unfold FiniteElement.interface_constraints_size
    rw [h2]
  · intro h2 hv hl
    unfold FiniteElement.interface_constraints_size
    rw [h2, hv, hl]

/-- Witness for C8: the sizing at the concrete scalar 2-D element with
one DOF per vertex and none per line. -/
theorem interface_constraints_sizing_witness :
    exampleFE.dim = 2 ∧ exampleFE.dofs_per_vertex = 1 ∧
    exampleFE.dofs_per_line = 0 ∧
    exampleFE.interface_constraints_size = (1, 2) :=
  ⟨by decide, by decide, by decide,
   (interface_constraints_sizing exampleFE).2.2.2 (by decide) (by decide) (by decide)⟩

/-- Claim C9: every index-taking query of the core returns no value
when its index is at or beyond the declared bound, and returns a value
for every in-range index that meets the query's further precondition;
the functions are pure, so the failure is the absence of a result at
the offending call, never a default value. -/
theorem index_range_checks (fe : FiniteElement) (h : WellConstructed fe) :
    (∀ i, fe.dofs_per_cell ≤ i →
      fe.get_nonzero_components i = none ∧ fe.n_nonzero_components i = none ∧
      fe.is_primitive i = none ∧ fe.restriction_is_additive i = none ∧
      fe.system_to_component_index i = none ∧ fe.system_to_base_index i = none) ∧
    (∀ i, fe.dofs_per_face ≤ i →
      fe.face_system_to_component_index i = none ∧
      fe.face_system_to_base_index i = none) ∧
    (∀ c, fe.n_components ≤ c → fe.component_to_base c = none) ∧
    (∀ i, i < fe.dofs_per_cell →
      (fe.get_nonzero_components i).isSome = true ∧
      (fe.n_nonzero_components i).isSome = true ∧
      (fe.is_primitive i).isSome = true ∧
      (fe.restriction_is_additive i).isSome = true ∧
      (fe.system_to_base_index i).isSome = true) ∧
    (∀ i, i < fe.dofs_per_cell → fe.is_primitive i = some true →
      (fe.system_to_component_index i).isSome = true) ∧
    (∀ i, i < fe.dofs_per_face → (fe.face_system_to_base_index i).isSome = true) ∧
    (∀ i, i < fe.dofs_per_face →
      fe.is_primitive (faceToCellIndex fe.dim fe.dofs_per_vertex fe.dofs_per_line i)
        = some true →
      (fe.face_system_to_component_index i).isSome = true) ∧
    (∀ c, c < fe.n_components → (fe.component_to_base c).isSome = true) := by
  have hnnzlen := nnz_table_length fe h
  refine ⟨?_, ?_, ?_, ?_, ?_, ?_, ?_, ?_⟩
  · intro i hi
    have hi' : ¬ i < fe.dofs_per_cell := Nat.not_lt.mpr hi
    refine ⟨?_, ?_, ?_, ?_, ?_, ?_⟩
    · unfold FiniteElement.get_nonzero_components
      rw [if_neg hi']
    · unfold FiniteElement.n_nonzero_components
      rw [if_neg hi']
    · unfold FiniteElement.is_primitive
      rw [if_neg hi']
    · unfold FiniteElement.restriction_is_additive
      rw [if_neg hi']
    · unfold FiniteElement.system_to_component_index
      rw [if_neg (by rw [h.stc_len]; exact hi')]
    · unfold FiniteElement.system_to_base_index
      rw [if_neg (by rw [h.stb_len]; exact hi')]
  · intro i hi
    have hi' : ¬ i < fe.dofs_per_face := Nat.not_lt.mpr hi
    constructor
    · unfold FiniteElement.face_system_to_component_index
      rw [if_neg (by rw [h.fstc_len]; exact hi')]
    · unfold FiniteElement.face_system_to_base_index
      rw [if_neg (by rw [h.fstb_len]; exact hi')]
  · intro c hc
    unfold FiniteElement.component_to_base
    rw [if_neg (by rw [h.ctb_len]; exact Nat.not_lt.mpr hc)]
  · intro i hi
    refine ⟨?_, ?_, ?_, ?_, ?_⟩
    · unfold FiniteElement.get_nonzero_components
      rw [if_pos hi, List.getElem?_eq_getElem (by rw [h.nzc_len]; exact hi)]
      rfl
    · unfold FiniteElement.n_nonzero_components
      rw [if_pos hi, List.getElem?_eq_getElem (by rw [hnnzlen]; exact hi)]
      rfl
    · unfold FiniteElement.is_primitive
      rw [if_pos hi, List.getElem?_eq_getElem (by rw [hnnzlen]; exact hi)]
      rfl
    · unfold FiniteElement.restriction_is_additive
      rw [if_pos hi, List.getElem?_eq_getElem (by rw [h.ria_len]; exact hi)]
      rfl
    · unfold FiniteElement.system_to_base_index
      rw [if_pos (by rw [h.stb_len]; exact hi),
        List.getElem?_eq_getElem (by rw [h.stb_len]; exact hi)]
      rfl
  · intro i hi hf
    obtain ⟨-, n, hn, hnb⟩ := is_primitive_extract fe hf
    have hn1 : fe.n_nonzero_components_table[i]? = some 1 := by
      rw [hn]
      have : n = 1 := by simpa using hnb
      rw [this]
    have hlen : i < fe.system_to_component_table.length := by rw [h.stc_len]; exact hi
    unfold FiniteElement.system_to_component_index
    rw [if_pos hlen, if_pos ⟨hi, hn1⟩, List.getElem?_eq_getElem hlen]
    rfl
  · intro i hi
    have hl : i < fe.face_system_to_base_table.length := by rw [h.fstb_len]; exact hi
    unfold FiniteElement.face_system_to_base_index
    rw [if_pos hl, List.getElem?_eq_getElem hl]
    rfl
  · intro i hi hf
    obtain ⟨hcell, n, hn, hnb⟩ := is_primitive_extract fe hf
    have hn1 : fe.n_nonzero_components_table[faceToCellIndex fe.dim fe.dofs_per_vertex
        fe.dofs_per_line i]? = some 1 := by
      rw [hn]
      have : n = 1 := by simpa using hnb
      rw [this]
    have hlen : i < fe.face_system_to_component_table.length := by
      rw [h.fstc_len]; exact hi
    unfold FiniteElement.face_system_to_component_index
    rw [if_pos hlen, if_pos ⟨h.dim_ok, hcell, hn1⟩, List.getElem?_eq_getElem hlen]
    rfl
  · intro c hc
    have hl : c < fe.component_to_base_table.length := by rw [h.ctb_len]; exact hc
    unfold FiniteElement.component_to_base
    rw [if_pos hl, List.getElem?_eq_getElem hl]
    rfl

/-- Witness for C9: on the concrete scalar element, out-of-range calls
return no value and in-range calls return one. -/
theorem index_range_checks_witness :
    exampleFE.system_to_component_index 4 = none ∧
    exampleFE.component_to_base 1 = none ∧
    exampleFE.face_system_to_component_index 2 = none ∧
    (exampleFE.restriction_is_additive 3).isSome = true ∧
    (exampleFE.component_to_base 0).isSome = true := by
  have h := index_range_checks exampleFE exampleFE_wc
  exact ⟨(h.1 4 (by decide)).2.2.2.2.1, h.2.2.1 1 (by decide),
    (h.2.1 2 (by decide)).1, (h.2.2.2.1 3 (by decide)).2.2.2.1,
    h.2.2.2.2.2.2.2 0 (by decide)⟩

/-- Claim C10 (implicit): the equality comparison of two elements reads
only the descriptor counts and the interface constraint matrix; it does
not inspect the restriction and prolongation arrays, so two elements
differing only there compare equal, while elements differing in the
interface constraint matrix compare unequal. -/
theorem operator_eq_ignores_transfer_matrices :
    (∀ a b : FiniteElement, feEq a b =
      feEq { a with restriction := [], prolongation := [] }
            { b with restriction := [], prolongation := [] }) ∧
    exampleFE.restriction ≠ exampleFEAltRestriction.restriction ∧
    feEq exampleFE exampleFEAltRestriction = true ∧
    exampleFE.interface_constraints ≠ exampleFEAltConstraints.interface_constraints ∧
    feEq exampleFE exampleFEAltConstraints = false :=
  ⟨fun a b => rfl, by decide, by decide, by decide, by decide⟩

/-- Witness for C10: the concrete pair differing only in restriction
matrices compares equal. -/
theorem operator_eq_ignores_transfer_matrices_witness :
    feEq exampleFE exampleFEAltRestriction = true ∧
    exampleFE.restriction ≠ exampleFEAltRestriction.restriction :=
  ⟨operator_eq_ignores_transfer_matrices.2.2.1,
   operator_eq_ignores_transfer_matrices.2.1⟩

end DealII
